import Mathlib

/-
Verification development for the netadapters repository (Go).

Shallow embedding of:
  - pkg/http/server.go        (ServerAdapter.handleRequest, responseWriter.WriteResponse)
  - src/unnamed client.go     (ClientEmitter.Emit, read from the client tests / TESTING.md)
  - examples/relay-node/main.go (processEvent, forwardRequest)
  - src/unnamed/part_007      (the circular-relay variant of forwardRequest)

Go maps (map[string]string) are modelled as association lists with a
set operation that removes the old binding and appends the new one, so
lookups behave like Go map lookups.  Go []byte values are modelled as
String.  Machine ints are modelled as Int (Go int is 64-bit here; the
only place overflow matters is strconv.Atoi, whose int64 range check is
modelled explicitly).  Timestamps and network/IO effects are outside the
model: functions return records describing every externally visible
action they perform (connection writes, bus publishes, spawned forward
calls, counter increments) instead of performing them.
-/

set_option autoImplicit false

namespace NetAdapters

/-- Association-list model of Go map[string]string. -/
abbrev Headers := List (String × String)

/-- Go map lookup: first binding of the key. -/
def hGet (hs : Headers) (k : String) : Option String :=
  match hs with
  | [] => none
  | (k0, v0) :: rest => if k0 = k then some v0 else hGet rest k

/-- Go map store / http.Header.Set: drop any old binding, append the new one.
(Inbound header keys come from net/http already in canonical form, so the
canonicalisation step of Header.Set is the identity on every key we touch.) -/
def hSet (hs : Headers) (k v : String) : Headers :=
  hs.filter (fun p => p.1 != k) ++ [(k, v)]

/-- The Go loop `for k, v := range src { dst.Set(k, v) }`. -/
def hSetAll (dst src : Headers) : Headers :=
  src.foldl (fun acc p => hSet acc p.1 p.2) dst

/-- HTTPRequestPayload from the pkg/http payload definitions
(Timestamp and TLS are outside the model). -/
structure HTTPRequestPayload where
  RequestID : String
  Method : String
  Path : String
  Query : Headers
  HHeaders : Headers
  Body : String
  RemoteAddr : String
  LocalAddr : String
deriving DecidableEq, Repr

/-- HTTPResponsePayload from the pkg/http payload definitions
(Timestamp/Duration are outside the model). -/
structure HTTPResponsePayload where
  RequestID : String
  StatusCode : Int
  RHeaders : Headers
  Body : String
deriving DecidableEq, Repr

/-- Decimal digit value, or none. -/
def digitVal (c : Char) : Option Nat :=
  if '0' ≤ c ∧ c ≤ '9' then some (c.toNat - '0'.toNat) else none

/-- Accumulate a run of decimal digits; none on the first non-digit. -/
def parseDigitsAux (cs : List Char) (acc : Nat) : Option Nat :=
  match cs with
  | [] => some acc
  | c :: rest =>
    match digitVal c with
    | some d => parseDigitsAux rest (acc * 10 + d)
    | none => none

/-- strconv.Atoi: optional sign, then one or more decimal digits making up
the whole string; any error (empty string, stray character, int64 range
overflow) is `none`, since the callers only test `err == nil`. -/
def goAtoi (s : String) : Option Int :=
  let cs := s.data
  let signed : Bool × List Char :=
    match cs with
    | '-' :: rest => (true, rest)
    | '+' :: rest => (false, rest)
    | _ => (false, cs)
  match signed.2 with
  | [] => none
  | ds =>
    match parseDigitsAux ds 0 with
    | none => none
    | some n =>
      let v : Int := if signed.1 then -(n : Int) else (n : Int)
      if v < -(2 ^ 63) ∨ v > 2 ^ 63 - 1 then none else some v

namespace Http

/-- One write performed on the underlying http.ResponseWriter: the headers
set on it, the status code passed to WriteHeader, and the body bytes. -/
structure ConnWrite where
  status : Int
  headers : Headers
  body : String
deriving DecidableEq, Repr

/-- State of one responseWriter (server.go): the written flag, whether
close(rw.done) has happened, and the writes already performed on the
underlying connection. -/
structure RWState where
  written : Bool
  doneClosed : Bool
  connWrites : List ConnWrite
deriving DecidableEq, Repr

/-- responseWriter.WriteResponse (server.go lines 196-223).  The body of
the function runs under rw.mu, so it is one atomic step.  If the written
flag is set it returns the "response already written" error and touches
nothing; otherwise it sets the headers, writes status and body, sets the
flag and closes the done channel.  (The underlying sink is external; its
own write errors are out of the model.) -/
def writeResponse (s : RWState) (statusCode : Int) (headers : Headers) (body : String) :
    RWState × Except String Unit :=
  if s.written then
    (s, Except.error "response already written")
  else
    ({ written := true, doneClosed := true,
       connWrites := s.connWrites ++ [⟨statusCode, headers, body⟩] }, Except.ok ())

/-- The write issued by the timeout branch of handleRequest:
w.WriteHeader(http.StatusOK); w.Write([]byte("Request processed")). -/
def fallbackWrite : ConnWrite := ⟨200, [], "Request processed"⟩

/-- The hard-coded wait ceiling of handleRequest: time.After(30 * time.Second). -/
def requestTimeoutSeconds : Nat := 30

/-- Outcome of the ingress steps of handleRequest (body read, event creation). -/
inductive IngressOutcome where
  | bodyReadError
  | eventCreateError
  | ok
deriving DecidableEq, Repr

/-- Outcome of a.bus.Publish. -/
inductive PublishOutcome where
  | published
  | failed
deriving DecidableEq, Repr

/-- Which branch of the select on rw.done / time.After wins. -/
inductive WaitOutcome where
  | completed
  | timedOut
deriving DecidableEq, Repr

/-- Externally visible effects of one handleRequest execution. -/
structure HandleResult where
  /-- the handle was stored in globalResponseWriters -/
  registered : Bool
  /-- number of a.bus.Publish calls -/
  publishCalls : Nat
  /-- number of globalResponseWriters.Delete(requestID) calls -/
  deletes : Nat
  /-- connection writes performed by handleRequest itself
  (http.Error calls and the timeout fallback; the emitter's write on a
  completed request goes through writeResponse, not through here) -/
  connWrites : List ConnWrite
  /-- handleRequest reached the select wait -/
  waited : Bool
  /-- the registry still holds the request ID when handleRequest returns -/
  inRegistryAtEnd : Bool
deriving DecidableEq, Repr

/-- ServerAdapter.handleRequest (server.go lines 98-184), as the sequence of
effects of one execution.  The decode/IO outcomes of the external
collaborators are inputs; `writtenAtTimeout` is the value of rw.written that
the timeout branch observes at its `if !rw.written` check. -/
def handleRequest (ingress : IngressOutcome) (publish : PublishOutcome)
    (wait : WaitOutcome) (writtenAtTimeout : Bool) : HandleResult :=
  match ingress with
  | IngressOutcome.bodyReadError =>
      ⟨false, 0, 0, [⟨400, [], "Failed to read request body"⟩], false, false⟩
  | IngressOutcome.eventCreateError =>
      ⟨false, 0, 0, [⟨500, [], "Failed to create event"⟩], false, false⟩
  | IngressOutcome.ok =>
    match publish with
    | PublishOutcome.failed =>
        ⟨true, 1, 1, [⟨500, [], "Failed to process request"⟩], false, false⟩
    | PublishOutcome.published =>
      match wait with
      | WaitOutcome.completed =>
          ⟨true, 1, 1, [], true, false⟩
      | WaitOutcome.timedOut =>
          ⟨true, 1, 1, if writtenAtTimeout then [] else [fallbackWrite], true, false⟩

/-- Combined state of one request's handle, its registry entry, and the
emitter goroutine handling a late response for it.  `inRegistry` models
globalResponseWriters containing the request ID; `handleLoaded` models the
emitter having already obtained the responseWriter via GetResponseWriter. -/
structure ScenState where
  inRegistry : Bool
  handleLoaded : Bool
  rw : RWState
deriving DecidableEq, Repr

/-- Atomic steps of the goroutines acting on one request's handle.
Each constructor is one atomic operation of the source:
  - emitLoad: ClientEmitter.Emit's GetResponseWriter lookup (client.go /
    server.go lines 229-235); on a miss Emit returns the non-fatal
    "no response writer found" error and performs no write.
  - emitWrite: the subsequent rw.WriteResponse call, atomic under rw.mu.
  - listenerTimeout: the time.After branch of handleRequest's select
    (server.go lines 176-183): Delete the registry entry, then write the
    fallback iff the unsynchronised read of rw.written sees false.  It
    does not set rw.written and does not take rw.mu.
  - listenerDone: the rw.done branch (server.go lines 173-175): Delete only. -/
inductive ScenStep where
  | emitLoad
  | emitWrite (statusCode : Int) (headers : Headers) (body : String)
  | listenerTimeout
  | listenerDone
deriving DecidableEq, Repr

/-- State right after handleRequest registered the handle:
registry holds the ID, nothing loaded, nothing written. -/
def scenInit : ScenState := ⟨true, false, ⟨false, false, []⟩⟩

/-- One atomic step of the concurrent system. -/
def scenStep (s : ScenState) : ScenStep → ScenState
  | ScenStep.emitLoad =>
      if s.inRegistry then { s with handleLoaded := true } else s
  | ScenStep.emitWrite statusCode headers body =>
      if s.handleLoaded then
        { s with rw := (writeResponse s.rw statusCode headers body).1 }
      else s
  | ScenStep.listenerTimeout =>
      let s1 := { s with inRegistry := false }
      if s1.rw.written then s1
      else { s1 with rw := { s1.rw with connWrites := s1.rw.connWrites ++ [fallbackWrite] } }
  | ScenStep.listenerDone => { s with inRegistry := false }

/-- An interleaving of the goroutines is a list of atomic steps. -/
def scenRun (s : ScenState) (steps : List ScenStep) : ScenState :=
  steps.foldl scenStep s

end Http

namespace RelayNode

/-- One adapter route of examples/relay-node/main.go (immutable after startup;
the per-route counters live in the ProcessResult increments). -/
structure AdapterRoute where
  id : String
  listenAddr : String
  nextHop : String
deriving DecidableEq, Repr

/-- A bus event as processEvent sees it: its metadata map and the result of
evt.DecodePayload with the JSON codec (the codec is an external collaborator,
modelled by its outcome). -/
structure Event where
  metadata : Headers
  decoded : Option HTTPRequestPayload
deriving DecidableEq, Repr

/-- Route resolution of processEvent (main.go lines 226-230): look the
adapter_id metadata up in adapterRoutes, falling back to the first
configured route. -/
def resolveRoute (routesInOrder : List AdapterRoute) (adapterID : String) :
    Option AdapterRoute :=
  match routesInOrder.find? (fun r => r.id == adapterID) with
  | some r => some r
  | none => routesInOrder.head?

/-- The hop-count computation of processEvent (main.go lines 253-258):
start from 1; if the X-Hop-Count header parses with strconv.Atoi, use the
parsed value plus one. -/
def computeHopCount (headers : Headers) : Int :=
  match hGet headers "X-Hop-Count" with
  | some hopHeader =>
    match goAtoi hopHeader with
    | some h => h + 1
    | none => 1
  | none => 1

/-- The local response published when the hop ceiling is exceeded
(main.go lines 268-274). -/
def dropResponse (nodeName : String) (payload : HTTPRequestPayload) :
    HTTPResponsePayload :=
  { RequestID := payload.RequestID
  , StatusCode := 200
  , RHeaders := [("Content-Type", "text/plain")]
  , Body := "Max hops reached at " ++ nodeName }

/-- The immediate local acknowledgement published after spawning a forward
(main.go lines 295-305). -/
def relayAck (nodeName : String) (hopCount : Int) (payload : HTTPRequestPayload) :
    HTTPResponsePayload :=
  { RequestID := payload.RequestID
  , StatusCode := 200
  , RHeaders := [ ("Content-Type", "text/plain")
                , ("X-Relay-Node", nodeName)
                , ("X-Hop-Count", toString hopCount) ]
  , Body := "Relayed by " ++ nodeName ++ " (hop " ++ toString hopCount ++ ")" }

/-- One spawned `go forwardRequest(...)` call (main.go lines 281-293);
its network outcome is external. -/
structure ForwardCall where
  nextHop : String
  payload : HTTPRequestPayload
  hopCount : Int
  node : String
deriving DecidableEq, Repr

/-- Externally visible effects of one processEvent execution on its
resolved route: counter increments, spawned forwards, published responses. -/
structure ProcessResult where
  receivedInc : Nat
  droppedInc : Nat
  errorsInc : Nat
  forwards : List ForwardCall
  published : List HTTPResponsePayload
deriving DecidableEq, Repr

/-- processEvent of examples/relay-node/main.go (lines 225-314), given the
route resolved for the event's adapter (resolveRoute) and the decode
outcome carried by the event.  The receive counters are bumped first; a
decode error bumps the error counters and stops; a hop count above the
ceiling bumps the dropped counters and publishes the drop response without
forwarding; otherwise exactly one forward is spawned and the local
acknowledgement is published.  (The forwarded/error counters bumped inside
the spawned goroutine depend on the network outcome of the forward and are
not part of this record; the spawned call itself is.) -/
def processEvent (maxHops : Int) (nodeName : String) (route : AdapterRoute)
    (evt : Event) : ProcessResult :=
  match evt.decoded with
  | none => ⟨1, 0, 1, [], []⟩
  | some payload =>
    let hopCount := computeHopCount payload.HHeaders
    if hopCount > maxHops then
      ⟨1, 1, 0, [], [dropResponse nodeName payload]⟩
    else
      ⟨1, 0, 0
      , [⟨route.nextHop, payload, hopCount, nodeName⟩]
      , [relayAck nodeName hopCount payload]⟩

/-- The outbound HTTP request an invocation of forwardRequest hands to
relayClient.Do: method, URL, headers and body. -/
structure ForwardedRequest where
  method : String
  url : String
  headers : Headers
  body : String
deriving DecidableEq, Repr

/-- forwardRequest of examples/relay-node/main.go (lines 363-393): a POST to
nextHop plus the original path, body = "[<node>→hop<n>] " prefix followed by
the original body, headers = the original headers with X-Hop-Count and
X-Relay-Node overridden.  No X-Visited-Nodes header is set by this variant. -/
def forwardRequest (nextHop : String) (payload : HTTPRequestPayload)
    (hopCount : Int) (nodeName : String) : ForwardedRequest :=
  let marker := "[" ++ nodeName ++ "→hop" ++ toString hopCount ++ "] "
  { method := "POST"
  , url := nextHop ++ payload.Path
  , headers :=
      hSet (hSet (hSetAll [] payload.HHeaders) "X-Hop-Count" (toString hopCount))
        "X-Relay-Node" nodeName
  , body := marker ++ payload.Body }

end RelayNode

namespace CircularRelay

/-- forwardRequest of the circular-relay main (src/unnamed/part_007 lines
365-406): same POST, URL, body prefix and hop headers as the relay-node
variant, plus X-Original-Request-ID, plus the comma-appended
X-Visited-Nodes trail (Go's map read yields "" for a missing key). -/
def forwardRequest (nextHop : String) (payload : HTTPRequestPayload)
    (hopCount : Int) (nodeName : String) : RelayNode.ForwardedRequest :=
  let relayBody :=
    "[" ++ nodeName ++ "→hop" ++ toString hopCount ++ "] " ++ payload.Body
  let h0 := hSetAll [] payload.HHeaders
  let h1 := hSet h0 "X-Hop-Count" (toString hopCount)
  let h2 := hSet h1 "X-Relay-Node" nodeName
  let h3 := hSet h2 "X-Original-Request-ID" payload.RequestID
  let visitedNodes := (hGet payload.HHeaders "X-Visited-Nodes").getD ""
  let h4 :=
    if visitedNodes = "" then hSet h3 "X-Visited-Nodes" nodeName
    else hSet h3 "X-Visited-Nodes" (visitedNodes ++ "," ++ nodeName)
  { method := "POST"
  , url := nextHop ++ payload.Path
  , headers := h4
  , body := relayBody }

end CircularRelay

/-! Lookup lemmas for the association-list model of Go maps. -/

theorem hGet_append (xs ys : Headers) (k : String) :
    hGet (xs ++ ys) k =
      match hGet xs k with
      | some v => some v
      | none => hGet ys k := by
  induction xs with
  | nil => simp [hGet]
  | cons p rest ih =>
    by_cases h : p.1 = k <;> simp [hGet, h, ih]

theorem hGet_filterOut_self (hs : Headers) (k : String) :
    hGet (hs.filter (fun p => p.1 != k)) k = none := by
  induction hs with
  | nil => simp [hGet]
  | cons p rest ih =>
    by_cases h : p.1 = k <;> simp [List.filter_cons, h, hGet, ih]

theorem hGet_filterOut_ne (hs : Headers) (k k2 : String) (h : k2 ≠ k) :
    hGet (hs.filter (fun p => p.1 != k)) k2 = hGet hs k2 := by
  induction hs with
  | nil => simp
  | cons p rest ih =>
    by_cases hp : p.1 = k
    · have hp2 : p.1 ≠ k2 := by rw [hp]; exact fun hc => h hc.symm
      simp [List.filter_cons, hp, hGet, hp2, ih, Ne.symm h]
    · by_cases hp2 : p.1 = k2 <;> simp [List.filter_cons, hp, hGet, hp2, ih, h]

theorem hGet_hSet_same (hs : Headers) (k v : String) :
    hGet (hSet hs k v) k = some v := by
  rw [hSet, hGet_append, hGet_filterOut_self]
  simp [hGet]

theorem hGet_hSet_ne (hs : Headers) (k v k2 : String) (h : k2 ≠ k) :
    hGet (hSet hs k v) k2 = hGet hs k2 := by
  rw [hSet, hGet_append, hGet_filterOut_ne hs k k2 h]
  cases hv : hGet hs k2 <;> simp [hGet, h, Ne.symm h]

theorem hSetAll_cons (dst : Headers) (p : String × String) (src : Headers) :
    hSetAll dst (p :: src) = hSetAll (hSet dst p.1 p.2) src := rfl

theorem hGet_hSetAll_notMem (src : Headers) (k : String)
    (h : ∀ p ∈ src, p.1 ≠ k) (dst : Headers) :
    hGet (hSetAll dst src) k = hGet dst k := by
  induction src generalizing dst with
  | nil => simp [hSetAll]
  | cons p rest ih =>
    rw [hSetAll_cons, ih (fun q hq => h q (List.mem_cons_of_mem p hq)),
      hGet_hSet_ne dst p.1 p.2 k (fun hc => h p (List.mem_cons_self p rest) hc.symm)]

theorem hGet_hSetAll_nodup (src : Headers) (k : String)
    (hnd : (src.map Prod.fst).Nodup) (dst : Headers) :
    hGet (hSetAll dst src) k =
      match hGet src k with
      | some v => some v
      | none => hGet dst k := by
  induction src generalizing dst with
  | nil => simp [hSetAll, hGet]
  | cons p rest ih =>
    have hnd2 : p.1 ∉ rest.map Prod.fst ∧ (rest.map Prod.fst).Nodup := by
      rw [List.map_cons, List.nodup_cons] at hnd
      exact hnd
    by_cases h : p.1 = k
    · have hrest : ∀ q ∈ rest, q.1 ≠ k := by
        intro q hq hc
        have hm : q.1 ∈ rest.map Prod.fst := List.mem_map_of_mem Prod.fst hq
        rw [hc, ← h] at hm
        exact hnd2.1 hm
      rw [hSetAll_cons, hGet_hSetAll_notMem rest k hrest (hSet dst p.1 p.2), h,
        hGet_hSet_same]
      simp [hGet, h]
    · rw [hSetAll_cons, ih hnd2.2 (hSet dst p.1 p.2),
        hGet_hSet_ne dst p.1 p.2 k (fun hc => h hc.symm)]
      simp [hGet, h]

theorem hGet_hSetAll_nil (src : Headers) (k : String)
    (hnd : (src.map Prod.fst).Nodup) :
    hGet (hSetAll [] src) k = hGet src k := by
  rw [hGet_hSetAll_nodup src k hnd []]
  cases hv : hGet src k <;> simp [hGet]

/-! Claim theorems. -/

/-- Claim C1: for every event processed by processEvent whose payload
decodes, if the computed hopCount is greater than maxHops then no forward
call is spawned for that event, and if it is at most maxHops then exactly
one forward call is spawned. -/
theorem relay_forward_iff_hop_within_bound (maxHops : Int) (nodeName : String)
    (route : RelayNode.AdapterRoute) (evt : RelayNode.Event)
    (payload : HTTPRequestPayload) (hdec : evt.decoded = some payload) :
    (RelayNode.computeHopCount payload.HHeaders > maxHops →
      (RelayNode.processEvent maxHops nodeName route evt).forwards = []) ∧
    (RelayNode.computeHopCount payload.HHeaders ≤ maxHops →
      (RelayNode.processEvent maxHops nodeName route evt).forwards.length = 1) := by
  unfold RelayNode.processEvent
  rw [hdec]
  constructor
  · intro hgt
    simp [hgt]
  · intro hle
    simp [not_lt.mpr hle]

/-- Witness for C1 at concrete inputs: with an inbound X-Hop-Count of 3 the
computed hop count is 4, so a ceiling of 10 yields exactly one forward and a
ceiling of 1 yields none. -/
theorem relay_forward_iff_hop_within_bound_witness :
    (RelayNode.processEvent 10 "nodeA" ⟨"a1", ":8080", "http://next"⟩
        ⟨[], some ⟨"r1", "GET", "/p", [], [("X-Hop-Count", "3")], "b", "", ""⟩⟩).forwards.length
      = 1 ∧
    (RelayNode.processEvent 1 "nodeA" ⟨"a1", ":8080", "http://next"⟩
        ⟨[], some ⟨"r1", "GET", "/p", [], [("X-Hop-Count", "3")], "b", "", ""⟩⟩).forwards
      = [] :=
  ⟨(relay_forward_iff_hop_within_bound 10 "nodeA" ⟨"a1", ":8080", "http://next"⟩
      ⟨[], some ⟨"r1", "GET", "/p", [], [("X-Hop-Count", "3")], "b", "", ""⟩⟩
      ⟨"r1", "GET", "/p", [], [("X-Hop-Count", "3")], "b", "", ""⟩ rfl).2 (by decide),
   (relay_forward_iff_hop_within_bound 1 "nodeA" ⟨"a1", ":8080", "http://next"⟩
      ⟨[], some ⟨"r1", "GET", "/p", [], [("X-Hop-Count", "3")], "b", "", ""⟩⟩
      ⟨"r1", "GET", "/p", [], [("X-Hop-Count", "3")], "b", "", ""⟩ rfl).1 (by decide)⟩

/-- Claim C2: evaluation of the code at the failing interleaving.  The
emitter obtains the responseWriter from the registry, the 30-second timeout
branch of handleRequest then deletes the registry entry and writes the
fallback (the unsynchronised read of rw.written sees false, and the branch
never sets the flag), and the late WriteResponse is then accepted instead of
being rejected with "response already written": two writes reach the same
connection, contradicting the exactly-one-write guarantee. -/
theorem timeout_fallback_race_double_write :
    (Http.scenRun Http.scenInit
        [Http.ScenStep.emitLoad, Http.ScenStep.listenerTimeout,
         Http.ScenStep.emitWrite 200 [] "late response"]).rw.connWrites =
      [Http.fallbackWrite, ⟨200, [], "late response"⟩] ∧
    (Http.scenRun Http.scenInit
        [Http.ScenStep.emitLoad, Http.ScenStep.listenerTimeout,
         Http.ScenStep.emitWrite 200 [] "late response"]).rw.written = true := by
  constructor <;> rfl

/-- Claim C3: when the handle receives no completion signal within the
30-second ceiling, handleRequest takes the timeout branch, writes the
fallback 200 response with body "Request processed" to the caller, and
removes the handle from the registry. -/
theorem handleRequest_timeout_writes_fallback_and_expires :
    Http.handleRequest Http.IngressOutcome.ok Http.PublishOutcome.published
        Http.WaitOutcome.timedOut false =
      ⟨true, 1, 1, [⟨200, [], "Request processed"⟩], true, false⟩ ∧
    Http.requestTimeoutSeconds = 30 :=
  ⟨rfl, rfl⟩

/-- Claim C4: when the event publish fails, handleRequest immediately writes
the 500 "Failed to process request" error response, deletes the handle from
the registry, publishes exactly once (no retry), and never reaches the
completion wait. -/
theorem handleRequest_publish_failure_fails_fast (wait : Http.WaitOutcome)
    (writtenAtTimeout : Bool) :
    Http.handleRequest Http.IngressOutcome.ok Http.PublishOutcome.failed
        wait writtenAtTimeout =
      ⟨true, 1, 1, [⟨500, [], "Failed to process request"⟩], false, false⟩ :=
  rfl

/-- Claim C5 counterexample: the relay-node forwardRequest sets no
X-Visited-Nodes header, so a forward of a request without that header
carries no visited-nodes trail, refuting "every forward operation ...
an appended comma-separated X-Visited-Nodes diagnostic trail". -/
theorem relay_forward_no_visited_nodes_counterexample :
    hGet (RelayNode.forwardRequest "http://next"
        ⟨"r1", "GET", "/p", [], [("Content-Type", "text/plain")], "hello", "", ""⟩
        2 "nodeA").headers "X-Visited-Nodes" = none := by
  decide

/-- Claim C5 (amended): every forward operation sends the request to the
next-hop target carrying the original path and headers plus X-Hop-Count
equal to the incremented hop count and X-Relay-Node with the node identity;
the circular-relay variant of forwardRequest additionally appends the node
to the comma-separated X-Visited-Nodes trail, while the relay-node variant
leaves X-Visited-Nodes exactly as it was on the inbound request. -/
theorem forward_wire_contract (nextHop : String) (payload : HTTPRequestPayload)
    (hopCount : Int) (nodeName : String)
    (hnd : (payload.HHeaders.map Prod.fst).Nodup) :
    (RelayNode.forwardRequest nextHop payload hopCount nodeName).url
      = nextHop ++ payload.Path ∧
    hGet (RelayNode.forwardRequest nextHop payload hopCount nodeName).headers
        "X-Hop-Count" = some (toString hopCount) ∧
    hGet (RelayNode.forwardRequest nextHop payload hopCount nodeName).headers
        "X-Relay-Node" = some nodeName ∧
    (∀ k, k ≠ "X-Hop-Count" → k ≠ "X-Relay-Node" →
      hGet (RelayNode.forwardRequest nextHop payload hopCount nodeName).headers k
        = hGet payload.HHeaders k) ∧
    hGet (CircularRelay.forwardRequest nextHop payload hopCount nodeName).headers
        "X-Visited-Nodes"
      = some (match hGet payload.HHeaders "X-Visited-Nodes" with
              | none => nodeName
              | some v => if v = "" then nodeName else v ++ "," ++ nodeName) := by
  refine ⟨rfl, ?_, ?_, ?_, ?_⟩
  · show hGet (hSet (hSet _ "X-Hop-Count" _) "X-Relay-Node" _) "X-Hop-Count" = _
    rw [hGet_hSet_ne _ _ _ _ (by decide), hGet_hSet_same]
  · exact hGet_hSet_same _ _ _
  · intro k hk1 hk2
    show hGet (hSet (hSet (hSetAll [] payload.HHeaders) "X-Hop-Count" _)
        "X-Relay-Node" _) k = _
    rw [hGet_hSet_ne _ _ _ _ hk2, hGet_hSet_ne _ _ _ _ hk1,
      hGet_hSetAll_nil payload.HHeaders k hnd]
  · unfold CircularRelay.forwardRequest
    cases hv : hGet payload.HHeaders "X-Visited-Nodes" with
    | none => simp [hv, hGet_hSet_same]
    | some v =>
      by_cases hve : v = "" <;> simp [hv, hve, hGet_hSet_same]

/-- Witness for the amended C5 at a concrete input: an ordinary header of
the inbound request survives unchanged on the forwarded request. -/
theorem forward_wire_contract_witness :
    hGet (RelayNode.forwardRequest "http://next"
        ⟨"r1", "GET", "/p", [], [("Content-Type", "text/plain")], "hello", "", ""⟩
        2 "nodeA").headers "Content-Type"
      = hGet [("Content-Type", "text/plain")] "Content-Type" :=
  (forward_wire_contract "http://next"
      ⟨"r1", "GET", "/p", [], [("Content-Type", "text/plain")], "hello", "", ""⟩
      2 "nodeA" (by decide)).2.2.2.1 "Content-Type" (by decide) (by decide)

/-- Claim C6 counterexample: at hop count 11 against a ceiling of 10, the
published local response body is "Max hops reached at nodeZ", not the
"max hops exceeded at <node>" text the claim states (in either casing). -/
theorem drop_body_counterexample :
    (RelayNode.processEvent 10 "nodeZ" ⟨"a1", ":8080", "http://next"⟩
        ⟨[], some ⟨"r1", "GET", "/p", [], [("X-Hop-Count", "10")], "", "", ""⟩⟩).published.map
        (fun r => r.Body)
      = ["Max hops reached at nodeZ"] ∧
    ("Max hops reached at nodeZ" : String) ≠ "max hops exceeded at nodeZ" ∧
    ("Max hops reached at nodeZ" : String) ≠ "Max hops exceeded at nodeZ" := by
  refine ⟨by decide, by decide, by decide⟩

/-- Claim C6 (amended): for every decoded event whose computed hopCount
exceeds maxHops, processEvent increments the route's dropped counter by
exactly one, publishes an immediate local response whose body reports
"Max hops reached at <node>", and spawns no forward. -/
theorem processEvent_drop_behavior (maxHops : Int) (nodeName : String)
    (route : RelayNode.AdapterRoute) (evt : RelayNode.Event)
    (payload : HTTPRequestPayload) (hdec : evt.decoded = some payload)
    (hover : RelayNode.computeHopCount payload.HHeaders > maxHops) :
    RelayNode.processEvent maxHops nodeName route evt =
      ⟨1, 1, 0, [], [RelayNode.dropResponse nodeName payload]⟩ ∧
    (RelayNode.dropResponse nodeName payload).Body
      = "Max hops reached at " ++ nodeName := by
  constructor
  · unfold RelayNode.processEvent
    rw [hdec]
    simp [hover]
  · rfl

/-- Witness for the amended C6 at a concrete input. -/
theorem processEvent_drop_behavior_witness :
    RelayNode.processEvent 10 "nodeZ" ⟨"a1", ":8080", "http://next"⟩
        ⟨[], some ⟨"r1", "GET", "/p", [], [("X-Hop-Count", "10")], "", "", ""⟩⟩ =
      ⟨1, 1, 0, [],
        [RelayNode.dropResponse "nodeZ"
          ⟨"r1", "GET", "/p", [], [("X-Hop-Count", "10")], "", "", ""⟩]⟩ :=
  (processEvent_drop_behavior 10 "nodeZ" ⟨"a1", ":8080", "http://next"⟩
      ⟨[], some ⟨"r1", "GET", "/p", [], [("X-Hop-Count", "10")], "", "", ""⟩⟩
      ⟨"r1", "GET", "/p", [], [("X-Hop-Count", "10")], "", "", ""⟩ rfl (by decide)).1

/-- Claim C7: on every execution path of handleRequest that registers the
handle (publish failure, first completion, or timeout), the registry entry
is deleted exactly once and the registry no longer contains the request ID
when handleRequest finishes; paths that never register never delete. -/
theorem handleRequest_registry_removed_exactly_once :
    (∀ (publish : Http.PublishOutcome) (wait : Http.WaitOutcome)
        (writtenAtTimeout : Bool),
      (Http.handleRequest Http.IngressOutcome.ok publish wait
          writtenAtTimeout).registered = true ∧
      (Http.handleRequest Http.IngressOutcome.ok publish wait
          writtenAtTimeout).deletes = 1 ∧
      (Http.handleRequest Http.IngressOutcome.ok publish wait
          writtenAtTimeout).inRegistryAtEnd = false) ∧
    (∀ (ingress : Http.IngressOutcome) (publish : Http.PublishOutcome)
        (wait : Http.WaitOutcome) (writtenAtTimeout : Bool),
      (Http.handleRequest ingress publish wait writtenAtTimeout).registered = false →
      (Http.handleRequest ingress publish wait writtenAtTimeout).deletes = 0) := by
  constructor
  · intro publish wait writtenAtTimeout
    cases publish <;> cases wait <;> cases writtenAtTimeout <;> exact ⟨rfl, rfl, rfl⟩
  · intro ingress publish wait writtenAtTimeout h
    cases ingress <;> cases publish <;> cases wait <;> cases writtenAtTimeout <;>
      first
      | rfl
      | exact absurd h (by decide)

/-- Claim C8: every relay-node forward goes out with method POST regardless
of the inbound method, and its body is the original body prefixed with the
"[<node>→hop<n>] " diagnostic marker, hence never byte-identical to the
original body. -/
theorem forwardRequest_post_and_prefixed_body (nextHop : String)
    (payload : HTTPRequestPayload) (hopCount : Int) (nodeName : String) :
    (RelayNode.forwardRequest nextHop payload hopCount nodeName).method = "POST" ∧
    (RelayNode.forwardRequest nextHop payload hopCount nodeName).body =
      "[" ++ nodeName ++ "→hop" ++ toString hopCount ++ "] " ++ payload.Body ∧
    (RelayNode.forwardRequest nextHop payload hopCount nodeName).body
      ≠ payload.Body := by
  refine ⟨rfl, rfl, ?_⟩
  intro h
  have hlen := congrArg String.length h
  rw [show (RelayNode.forwardRequest nextHop payload hopCount nodeName).body =
      "[" ++ nodeName ++ "→hop" ++ toString hopCount ++ "] " ++ payload.Body from rfl,
    String.length_append, String.length_append, String.length_append,
    String.length_append, String.length_append] at hlen
  have hb : ("[" : String).length = 1 := rfl
  have hh : ("→hop" : String).length = 4 := rfl
  have hc : ("] " : String).length = 2 := rfl
  rw [hb, hh, hc] at hlen
  omega

/-- Claim C9: the locally published drop response has StatusCode 200 with a
text/plain body, the same status code as the acknowledgement published for a
successfully relayed request, so status code alone cannot distinguish them. -/
theorem drop_response_status_indistinguishable (nodeName : String)
    (payload : HTTPRequestPayload) (hopCount : Int) :
    (RelayNode.dropResponse nodeName payload).StatusCode = 200 ∧
    hGet (RelayNode.dropResponse nodeName payload).RHeaders "Content-Type"
      = some "text/plain" ∧
    (RelayNode.relayAck nodeName hopCount payload).StatusCode = 200 := by
  refine ⟨rfl, ?_, rfl⟩
  show hGet [("Content-Type", "text/plain")] "Content-Type" = some "text/plain"
  decide

/-- Claim C10: when the X-Hop-Count header is absent, or present but not
parseable by strconv.Atoi, the router computes hopCount = 1. -/
theorem computeHopCount_defaults_to_one (headers : Headers) :
    (hGet headers "X-Hop-Count" = none → RelayNode.computeHopCount headers = 1) ∧
    (∀ s, hGet headers "X-Hop-Count" = some s → goAtoi s = none →
      RelayNode.computeHopCount headers = 1) := by
  constructor
  · intro h
    unfold RelayNode.computeHopCount
    rw [h]
  · intro s hs ha
    unfold RelayNode.computeHopCount
    simp [hs, ha]

/-- Witness for C10 at concrete inputs: a request without the header and one
with the malformed header value "abc" both yield hop count 1. -/
theorem computeHopCount_defaults_to_one_witness :
    RelayNode.computeHopCount [("Content-Type", "text/plain")] = 1 ∧
    RelayNode.computeHopCount [("X-Hop-Count", "abc")] = 1 :=
  ⟨(computeHopCount_defaults_to_one [("Content-Type", "text/plain")]).1 (by decide),
   (computeHopCount_defaults_to_one [("X-Hop-Count", "abc")]).2 "abc" (by decide)
     (by decide)⟩

end NetAdapters
